import Mathlib

/-!
Verification of `scripts/process-questionnaire.py`.

The script reads a spreadsheet of survey responses, scores each row with a
quality heuristic (`assess_feedback_quality`), and emits a payment record
for every row scoring at least 3 (`process_questionnaire_responses`).

Embedding choices:
* A response row is modelled as the ordered list of the string forms of its
  cells (`str(row.iloc[i])` in the source); a cell read past the end of the
  row is given the missing-value string form "nan", matching what `str`
  produces for a pandas missing value.
* Scores are integers (`Int`), as in Python.
* The impure parts of the batch processor (UUID generation and the current
  time) are passed in as parameters: `ids : Nat → String` supplies the id of
  the k-th emitted record and `now : String` the processing timestamp.
-/

namespace Questionnaire

/-- Python string containment `w in s`: some suffix of `s` starts with `w`. -/
def listStartsWith : List Char → List Char → Bool
  | [], _ => true
  | _ :: _, [] => false
  | a :: as, b :: bs => a == b && listStartsWith as bs

/-- All suffixes of a list, the list itself included, down to `[]`. -/
def tailsOf : List Char → List (List Char)
  | [] => [[]]
  | c :: rest => (c :: rest) :: tailsOf rest

/-- Python's `w in s` substring test. -/
def strContains (s w : String) : Bool :=
  (tailsOf s.data).any (fun t => listStartsWith w.data t)

/-- The fixed keyword set of `assess_feedback_quality` (line 56). -/
def keywords : List String := ["建议", "希望", "应该", "可以", "改进", "优化"]

/-- `[str(row.iloc[i]) for i in range(4, 8)]` (line 48): the four free-text
feedback fields of a row. -/
def textFields (row : List String) : List String :=
  [row.getD 4 "nan", row.getD 5 "nan", row.getD 6 "nan", row.getD 7 "nan"]

/-- Python `str.lower`, character by character. -/
def strToLower (s : String) : String :=
  String.mk (s.data.map Char.toLower)

/-- `' '.join(text_fields).lower()` (line 55). -/
def fullText (text_fields : List String) : String :=
  strToLower (String.intercalate " " text_fields)

/-- The scoring loop of `assess_feedback_quality` (lines 42-59), as a function
of the already-extracted text fields: base score 1, plus 1 per text field of
length above 10 that is not the missing sentinel, plus 1 if the joined
lowercased text mentions a keyword, clamped at 5. -/
def scoreFields (text_fields : List String) : Int :=
  let score : Int := 0 + 1
  let score := text_fields.foldl
    (fun s t => if 10 < t.length ∧ t ≠ "nan" then s + 1 else s) score
  let score := if keywords.any (fun w => strContains (fullText text_fields) w)
    then score + 1 else score
  min score 5

/-- `assess_feedback_quality(row)` (lines 40-59). -/
def assess_feedback_quality (row : List String) : Int :=
  scoreFields (textFields row)

/-- The payment dictionary built at lines 21-30 of the source. -/
structure PaymentRecord where
  id : String
  feedback_code : String
  alipay_account : String
  amount : Rat
  quality_score : Int
  created_at : String
  payment_status : String
  feedback_data : List String
deriving DecidableEq

/-- Construction of one payment record (lines 21-30): `feedback_code` is the
cell at position 1, `alipay_account` the cell at position 2, amount fixed at
3.00, status "pending", `feedback_data` the full row. -/
def mkPaymentRecord (id now : String) (row : List String) : PaymentRecord :=
  { id := id
    feedback_code := row.getD 1 "nan"
    alipay_account := row.getD 2 "nan"
    amount := 3
    quality_score := assess_feedback_quality row
    created_at := now
    payment_status := "pending"
    feedback_data := row }

/-- The row loop of `process_questionnaire_responses` (lines 12-31); `k`
counts the records emitted so far and selects the fresh id for the next. -/
def processAux (ids : Nat → String) (now : String) :
    List (List String) → Nat → List PaymentRecord
  | [], _ => []
  | row :: rest, k =>
    if 3 ≤ assess_feedback_quality row then
      mkPaymentRecord (ids k) now row :: processAux ids now rest (k + 1)
    else
      processAux ids now rest k

/-- `process_questionnaire_responses` (lines 6-38) restricted to its pure
content: the list of payment records it accumulates and serializes. -/
def process_questionnaire_responses (ids : Nat → String) (now : String)
    (rows : List (List String)) : List PaymentRecord :=
  processAux ids now rows 0

/-- Reference scoring written from the specification text: start at 1; for
each of the 4 text fields at zero-indexed positions 4-7 add 1 if that field's
string form has length strictly greater than 10 and is not the sentinel
"nan"; add 1 more (at most once) if the lowercased space-joined concatenation
of those 4 string forms contains one of the keywords; take the minimum of
the total and 5. -/
def refQuality (row : List String) : Int :=
  let ind : String → Int := fun t => if 10 < t.length ∧ t ≠ "nan" then 1 else 0
  let kw : Int :=
    if keywords.any (fun w => strContains (fullText (textFields row)) w) then 1 else 0
  min
    (1 + ind (row.getD 4 "nan") + ind (row.getD 5 "nan") + ind (row.getD 6 "nan")
      + ind (row.getD 7 "nan") + kw) 5

/-- `scoreFields` with the per-field sentinel test dropped: a field counts as
soon as its length exceeds 10. -/
def scoreFieldsNoSentinel (text_fields : List String) : Int :=
  let score : Int := 0 + 1
  let score := text_fields.foldl
    (fun s t => if 10 < t.length then s + 1 else s) score
  let score := if keywords.any (fun w => strContains (fullText text_fields) w)
    then score + 1 else score
  min score 5

/-- The scorer variant without the sentinel check. -/
def assessNoSentinel (row : List String) : Int :=
  scoreFieldsNoSentinel (textFields row)

/-- Modelled from the spec: a JSON value, as produced by the standard-library
`json.dump` call at lines 34-35 (the serializer itself is library code absent
from the source tree). Strings, numbers (rationals for the fixed 3.00 amount,
integers for scores), arrays and objects suffice for a payment list. -/
inductive JValue where
  | jstr (s : String)
  | jrat (q : Rat)
  | jint (n : Int)
  | jarr (xs : List JValue)
  | jobj (fields : List (String × JValue))

/-- Modelled from the spec: the JSON object written for one payment record,
with the eight keys of lines 21-30; the `feedback_data` row is serialized as
the array of its cell string forms. -/
def encodeRecord (r : PaymentRecord) : JValue :=
  JValue.jobj
    [("id", JValue.jstr r.id),
     ("feedback_code", JValue.jstr r.feedback_code),
     ("alipay_account", JValue.jstr r.alipay_account),
     ("amount", JValue.jrat r.amount),
     ("quality_score", JValue.jint r.quality_score),
     ("created_at", JValue.jstr r.created_at),
     ("payment_status", JValue.jstr r.payment_status),
     ("feedback_data", JValue.jarr (r.feedback_data.map JValue.jstr))]

/-- Modelled from the spec: the JSON array `json.dump` writes for the whole
payment list. -/
def encodePaymentList (recs : List PaymentRecord) : JValue :=
  JValue.jarr (recs.map encodeRecord)

/-- Parse a JSON array of strings back into a row. -/
def decodeRow : List JValue → Option (List String)
  | [] => some []
  | JValue.jstr s :: rest => (decodeRow rest).map (fun r => s :: r)
  | _ => none

/-- Modelled from the spec: parse one payment-record object back into a
`PaymentRecord`; any shape other than the one written fails. -/
def decodeRecord : JValue → Option PaymentRecord
  | JValue.jobj
      [("id", JValue.jstr id),
       ("feedback_code", JValue.jstr fc),
       ("alipay_account", JValue.jstr aa),
       ("amount", JValue.jrat am),
       ("quality_score", JValue.jint qs),
       ("created_at", JValue.jstr ca),
       ("payment_status", JValue.jstr ps),
       ("feedback_data", JValue.jarr fd)] =>
    (decodeRow fd).map (fun row =>
      { id := id, feedback_code := fc, alipay_account := aa, amount := am,
        quality_score := qs, created_at := ca, payment_status := ps,
        feedback_data := row })
  | _ => none

/-- Parse the elements of the serialized payment list one by one. -/
def decodeRecords : List JValue → Option (List PaymentRecord)
  | [] => some []
  | v :: rest => match decodeRecord v with
    | some r => (decodeRecords rest).map (fun rs => r :: rs)
    | none => none

/-- Modelled from the spec: parse the whole output file back into the
sequence of payment records. -/
def decodePaymentList : JValue → Option (List PaymentRecord)
  | JValue.jarr xs => decodeRecords xs
  | _ => none

/-- A sample id supply for the concrete runs below. -/
def sampleIds : Nat → String := fun k => toString k

/-- A sample processing timestamp for the concrete runs below. -/
def sampleNow : String := "2025-01-01T00:00:00"

/-- A concrete qualifying row: two long text fields, one with a keyword. -/
def goodRow : List String :=
  ["0", "FB-001", "alipay-account", "3", "这个产品整体体验很不错值得推荐",
   "建议增加更多的自定义选项和设置", "nan", "nan"]

/-- The record the batch processor emits for `goodRow` at position 0. -/
def goodRecord : PaymentRecord := mkPaymentRecord (sampleIds 0) sampleNow goodRow

/-- A concrete row whose four text fields are all missing or blank. -/
def blankRow : List String := ["a", "b", "c", "d", "nan", "nan", "nan", ""]

/-- A concrete row whose text fields hold only a bare keyword. -/
def keywordRow : List String := ["", "", "", "", "建议", "nan", "nan", "nan"]

/-! ### Helper lemmas -/

/-- The scoring fold never decreases the accumulator. -/
lemma le_foldl_score (l : List String) : ∀ s : Int,
    s ≤ l.foldl (fun s t => if 10 < t.length ∧ t ≠ "nan" then s + 1 else s) s := by
  induction l with
  | nil => intro s; exact le_refl s
  | cons t rest ih =>
    intro s
    simp only [List.foldl_cons]
    refine le_trans ?_ (ih _)
    split_ifs <;> omega

/-- If every field is short, the scoring fold leaves the accumulator alone. -/
lemma foldl_score_of_short (l : List String) (h : ∀ t ∈ l, ¬ 10 < t.length) :
    ∀ s : Int,
      l.foldl (fun s t => if 10 < t.length ∧ t ≠ "nan" then s + 1 else s) s = s := by
  induction l with
  | nil => intro s; rfl
  | cons t rest ih =>
    intro s
    have ht : ¬ 10 < t.length := h t (by simp)
    simp only [List.foldl_cons]
    rw [if_neg (fun hc => ht hc.1)]
    exact ih (fun x hx => h x (by simp [hx])) s

/-- The score is at least the base score 1. -/
lemma one_le_assess (row : List String) : 1 ≤ assess_feedback_quality row := by
  simp only [assess_feedback_quality, scoreFields]
  have h := le_foldl_score (textFields row) (0 + 1)
  refine le_min ?_ (by norm_num)
  split_ifs <;> omega

/-- Every emitted record is a `mkPaymentRecord` of some id and some row. -/
lemma mem_processAux (ids : Nat → String) (now : String) :
    ∀ (rows : List (List String)) (k : Nat) (pr : PaymentRecord),
      pr ∈ processAux ids now rows k →
        ∃ i row, pr = mkPaymentRecord (ids i) now row
  | [], _, pr, h => absurd h (by simp [processAux])
  | row :: rest, k, pr, h => by
    by_cases hq : 3 ≤ assess_feedback_quality row
    · rw [processAux, if_pos hq] at h
      rcases List.mem_cons.mp h with h1 | h2
      · exact ⟨k, row, h1⟩
      · exact mem_processAux ids now rest (k + 1) pr h2
    · rw [processAux, if_neg hq] at h
      exact mem_processAux ids now rest k pr h

/-- The rows carried by the emitted records are exactly the qualifying input
rows, in input order. -/
lemma processAux_map_feedback (ids : Nat → String) (now : String) :
    ∀ (rows : List (List String)) (k : Nat),
      (processAux ids now rows k).map PaymentRecord.feedback_data
        = rows.filter (fun r => decide (3 ≤ assess_feedback_quality r))
  | [], _ => rfl
  | row :: rest, k => by
    by_cases h : 3 ≤ assess_feedback_quality row
    · simp [processAux, h, mkPaymentRecord,
        processAux_map_feedback ids now rest (k + 1)]
    · simp [processAux, h, processAux_map_feedback ids now rest k]

/-- Decoding undoes encoding for one serialized row. -/
lemma decodeRow_encode (row : List String) :
    decodeRow (row.map JValue.jstr) = some row := by
  induction row with
  | nil => rfl
  | cons s rest ih => simp [decodeRow, ih]

/-- Decoding undoes encoding for one payment record. -/
lemma decodeRecord_encode (r : PaymentRecord) :
    decodeRecord (encodeRecord r) = some r := by
  cases r
  show (decodeRow (List.map JValue.jstr _)).map _ = _
  rw [decodeRow_encode]
  rfl

/-- Decoding undoes encoding for a list of payment records. -/
lemma decodeRecords_encode (recs : List PaymentRecord) :
    decodeRecords (recs.map encodeRecord) = some recs := by
  induction recs with
  | nil => rfl
  | cons r rest ih => simp [decodeRecords, decodeRecord_encode, ih]

/-! ### Claim theorems -/

/-- Claim C1: for every response row, the quality score computed by
`assess_feedback_quality` equals the reference definition `refQuality` taken
from the specification text: base 1, plus 1 per long non-sentinel text field
at positions 4-7, plus at most 1 for a keyword in the lowercased space-joined
concatenation, clamped at 5. -/
theorem score_matches_reference (row : List String) :
    assess_feedback_quality row = refQuality row := by
  simp only [assess_feedback_quality, refQuality, scoreFields, textFields,
    List.foldl_cons, List.foldl_nil]
  split_ifs <;> norm_num

/-- Claim C2: for every response row, the quality score is an integer in the
closed interval `[0, 5]`. -/
theorem score_in_range (row : List String) :
    0 ≤ assess_feedback_quality row ∧ assess_feedback_quality row ≤ 5 := by
  constructor
  · have h := one_le_assess row
    omega
  · simp only [assess_feedback_quality, scoreFields]
    exact min_le_right _ _

/-- Claim C3: the batch processor emits exactly one payment record per input
row scoring at least 3, in the same relative order as the input rows (the
emitted records carry exactly the qualifying rows, in input order), and its
output length is the count of such rows. -/
theorem output_matches_qualifying_rows (ids : Nat → String) (now : String)
    (rows : List (List String)) :
    (process_questionnaire_responses ids now rows).map PaymentRecord.feedback_data
        = rows.filter (fun r => decide (3 ≤ assess_feedback_quality r)) ∧
      (process_questionnaire_responses ids now rows).length
        = rows.countP (fun r => decide (3 ≤ assess_feedback_quality r)) := by
  refine ⟨processAux_map_feedback ids now rows 0, ?_⟩
  have h := congrArg List.length (processAux_map_feedback ids now rows 0)
  simpa [process_questionnaire_responses, List.countP_eq_length_filter] using h

/-- Claim C4: every payment record the batch processor emits has amount 3.00
and payment status "pending". -/
theorem emitted_amount_status (ids : Nat → String) (now : String)
    (rows : List (List String)) (pr : PaymentRecord)
    (h : pr ∈ process_questionnaire_responses ids now rows) :
    pr.amount = 3 ∧ pr.payment_status = "pending" := by
  obtain ⟨i, row, rfl⟩ := mem_processAux ids now rows 0 pr h
  exact ⟨rfl, rfl⟩

/-- Witness for claim C4 at a concrete run over the single row `goodRow`. -/
theorem emitted_amount_status_witness :
    goodRecord ∈ process_questionnaire_responses sampleIds sampleNow [goodRow] ∧
      goodRecord.amount = 3 ∧ goodRecord.payment_status = "pending" :=
  ⟨by decide,
    emitted_amount_status sampleIds sampleNow [goodRow] goodRecord (by decide)⟩

/-- Claim C5: every emitted payment record's feedback code is the cell at
position 1 of its row and its alipay account the cell at position 2 (the
record's `feedback_data` field is exactly that row). -/
theorem emitted_code_account (ids : Nat → String) (now : String)
    (rows : List (List String)) (pr : PaymentRecord)
    (h : pr ∈ process_questionnaire_responses ids now rows) :
    pr.feedback_code = pr.feedback_data.getD 1 "nan" ∧
      pr.alipay_account = pr.feedback_data.getD 2 "nan" := by
  obtain ⟨i, row, rfl⟩ := mem_processAux ids now rows 0 pr h
  exact ⟨rfl, rfl⟩

/-- Witness for claim C5 at a concrete run over the single row `goodRow`. -/
theorem emitted_code_account_witness :
    goodRecord ∈ process_questionnaire_responses sampleIds sampleNow [goodRow] ∧
      goodRecord.feedback_code = goodRecord.feedback_data.getD 1 "nan" ∧
      goodRecord.alipay_account = goodRecord.feedback_data.getD 2 "nan" :=
  ⟨by decide,
    emitted_code_account sampleIds sampleNow [goodRow] goodRecord (by decide)⟩

/-- Claim C6: a row whose four text fields are all missing or blank (string
form "nan" or the empty string) scores exactly 1. -/
theorem blank_scores_one (row : List String)
    (h : ∀ t ∈ textFields row, t = "nan" ∨ t = "") :
    assess_feedback_quality row = 1 := by
  have h4 := h (row.getD 4 "nan") (by simp [textFields])
  have h5 := h (row.getD 5 "nan") (by simp [textFields])
  have h6 := h (row.getD 6 "nan") (by simp [textFields])
  have h7 := h (row.getD 7 "nan") (by simp [textFields])
  show scoreFields
    [row.getD 4 "nan", row.getD 5 "nan", row.getD 6 "nan", row.getD 7 "nan"] = 1
  rcases h4 with h4 | h4 <;> rcases h5 with h5 | h5 <;> rcases h6 with h6 | h6 <;>
    rcases h7 with h7 | h7 <;> rw [h4, h5, h6, h7] <;> decide

/-- Witness for claim C6 at the concrete all-blank row `blankRow`. -/
theorem blank_scores_one_witness :
    (∀ t ∈ textFields blankRow, t = "nan" ∨ t = "") ∧
      assess_feedback_quality blankRow = 1 :=
  ⟨by decide, blank_scores_one blankRow (by decide)⟩

/-- Claim C7: a row whose concatenated text mentions a keyword while no text
field is longer than 10 characters scores exactly 2. -/
theorem keyword_blank_scores_two (row : List String)
    (hk : keywords.any (fun w => strContains (fullText (textFields row)) w) = true)
    (hlen : ∀ t ∈ textFields row, t.length ≤ 10) :
    assess_feedback_quality row = 2 := by
  simp only [assess_feedback_quality, scoreFields]
  rw [foldl_score_of_short _ (fun t ht hc => absurd (hlen t ht) (by omega))]
  rw [if_pos hk]
  norm_num

/-- Witness for claim C7 at the concrete keyword-only row `keywordRow`. -/
theorem keyword_blank_scores_two_witness :
    keywords.any (fun w => strContains (fullText (textFields keywordRow)) w) = true ∧
      (∀ t ∈ textFields keywordRow, t.length ≤ 10) ∧
      assess_feedback_quality keywordRow = 2 :=
  ⟨by decide, by decide, keyword_blank_scores_two keywordRow (by decide) (by decide)⟩

/-- Claim C8: parsing the serialized payment list yields the original
sequence of records, structurally identical. -/
theorem json_roundtrip (recs : List PaymentRecord) :
    decodePaymentList (encodePaymentList recs) = some recs := by
  simp [decodePaymentList, encodePaymentList, decodeRecords_encode]

/-- Claim C9: the score is always at least 1; the value 0, though inside the
specified range `[0, 5]`, is never returned. -/
theorem score_at_least_one (row : List String) :
    1 ≤ assess_feedback_quality row :=
  one_le_assess row

/-- Claim C10: the sentinel test in the per-field condition is redundant:
dropping `t ≠ "nan"` from the length check never changes the score, because
"nan" has length 3 and cannot pass the length test. -/
theorem sentinel_check_redundant (row : List String) :
    assess_feedback_quality row = assessNoSentinel row := by
  have hstep : (fun (s : Int) (t : String) =>
        if 10 < t.length ∧ t ≠ "nan" then s + 1 else s)
      = fun (s : Int) (t : String) => if 10 < t.length then s + 1 else s := by
    funext s t
    by_cases h : 10 < t.length
    · have hne : t ≠ "nan" := by
        intro he
        rw [he] at h
        exact absurd h (by decide)
      simp [h, hne]
    · simp [h]
  simp only [assess_feedback_quality, assessNoSentinel, scoreFields,
    scoreFieldsNoSentinel]
  rw [hstep]

end Questionnaire
